import Mathlib

/-! The header uncrustify_types.h.

A shallow embedding of the constants and record types declared in
`src/uncrustify_types.h`, together with the properties of the flag
vocabulary, the language mask, the fixed array capacities and the
brace-stage enumeration.

Machine words are natural numbers; the C operators `&`, `|` and `<<` are
`&&&`, `|||` and `<<<` on `Nat`.
-/

namespace Uncrustify

/-! ## PCF_xxx chunk flags (lines 82-107) -/

def PCF_STMT_START : Nat := 1 <<< 0
def PCF_EXPR_START : Nat := 1 <<< 1
def PCF_IN_PREPROC : Nat := 1 <<< 2
def PCF_DONT_INDENT : Nat := 1 <<< 3
def PCF_MFC_PAREN : Nat := 1 <<< 4
def PCF_VAR_DEF : Nat := 1 <<< 5
def PCF_VAR_1ST : Nat := 1 <<< 6
def PCF_VAR_1ST_DEF : Nat := PCF_VAR_DEF ||| PCF_VAR_1ST
def PCF_VAR_INLINE : Nat := 1 <<< 7
def PCF_IN_ENUM : Nat := 1 <<< 8
def PCF_IN_FCN_DEF : Nat := 1 <<< 9
def PCF_IN_FCN_CALL : Nat := 1 <<< 10
def PCF_IN_SPAREN : Nat := 1 <<< 11
def PCF_RIGHT_COMMENT : Nat := 1 <<< 12
def PCF_OLD_FCN_PARAMS : Nat := 1 <<< 13
def PCF_WAS_ALIGNED : Nat := 1 <<< 14
def PCF_OPTIONAL : Nat := 1 <<< 15
def PCF_IN_TYPEDEF : Nat := 1 <<< 16
def PCF_IN_CONST_ARGS : Nat := 1 <<< 17
def PCF_LVALUE : Nat := 1 <<< 18
def PCF_IN_ARRAY_ASSIGN : Nat := 1 <<< 19
def PCF_IN_CLASS : Nat := 1 <<< 20
def PCF_IN_NAMESPACE : Nat := 1 <<< 21
def PCF_IN_FOR : Nat := 1 <<< 22
def PCF_ONE_LINER : Nat := 1 <<< 23
def PCF_ONE_CLASS : Nat := PCF_ONE_LINER ||| PCF_IN_CLASS

/-- Flags that get copied when a new chunk is inserted (lines 109-113).
`PCF_IN_CLASS` occurs twice in the macro, as it does here. -/
def PCF_COPY_FLAGS : Nat :=
  PCF_IN_PREPROC ||| PCF_IN_SPAREN ||| PCF_IN_ENUM |||
  PCF_IN_FCN_DEF ||| PCF_IN_FCN_CALL ||| PCF_IN_TYPEDEF |||
  PCF_IN_ARRAY_ASSIGN ||| PCF_IN_CLASS ||| PCF_IN_NAMESPACE |||
  PCF_IN_CLASS ||| PCF_IN_FOR

/-- The width of the `UINT32 flags` field of `chunk_t` (line 155). -/
def FLAGS_WIDTH : Nat := 32

/-- The C expression `~a` on a 32-bit word. -/
def bitnot32 (a : Nat) : Nat := a ^^^ (2 ^ FLAGS_WIDTH - 1)

/-- The C statement `f |= a`. -/
def set_flag (f a : Nat) : Nat := f ||| a

/-- The C statement `f &= ~a` on 32-bit words. -/
def clear_flag (f a : Nat) : Nat := f &&& bitnot32 a

/-- The basic flags in the order of their definitions (lines 82-106); the
two composites `PCF_VAR_1ST_DEF` and `PCF_ONE_CLASS` are not basic flags. -/
def pcf_basic : List Nat :=
  [PCF_STMT_START, PCF_EXPR_START, PCF_IN_PREPROC, PCF_DONT_INDENT,
   PCF_MFC_PAREN, PCF_VAR_DEF, PCF_VAR_1ST, PCF_VAR_INLINE,
   PCF_IN_ENUM, PCF_IN_FCN_DEF, PCF_IN_FCN_CALL, PCF_IN_SPAREN,
   PCF_RIGHT_COMMENT, PCF_OLD_FCN_PARAMS, PCF_WAS_ALIGNED, PCF_OPTIONAL,
   PCF_IN_TYPEDEF, PCF_IN_CONST_ARGS, PCF_LVALUE, PCF_IN_ARRAY_ASSIGN,
   PCF_IN_CLASS, PCF_IN_NAMESPACE, PCF_IN_FOR, PCF_ONE_LINER]

/-- Every `#define PCF_...` of lines 82-107, in source order, as the pair of
the macro name and its value. -/
def pcf_defines : List (String × Nat) :=
  [("PCF_STMT_START", PCF_STMT_START),
   ("PCF_EXPR_START", PCF_EXPR_START),
   ("PCF_IN_PREPROC", PCF_IN_PREPROC),
   ("PCF_DONT_INDENT", PCF_DONT_INDENT),
   ("PCF_MFC_PAREN", PCF_MFC_PAREN),
   ("PCF_VAR_DEF", PCF_VAR_DEF),
   ("PCF_VAR_1ST", PCF_VAR_1ST),
   ("PCF_VAR_1ST_DEF", PCF_VAR_1ST_DEF),
   ("PCF_VAR_INLINE", PCF_VAR_INLINE),
   ("PCF_IN_ENUM", PCF_IN_ENUM),
   ("PCF_IN_FCN_DEF", PCF_IN_FCN_DEF),
   ("PCF_IN_FCN_CALL", PCF_IN_FCN_CALL),
   ("PCF_IN_SPAREN", PCF_IN_SPAREN),
   ("PCF_RIGHT_COMMENT", PCF_RIGHT_COMMENT),
   ("PCF_OLD_FCN_PARAMS", PCF_OLD_FCN_PARAMS),
   ("PCF_WAS_ALIGNED", PCF_WAS_ALIGNED),
   ("PCF_OPTIONAL", PCF_OPTIONAL),
   ("PCF_IN_TYPEDEF", PCF_IN_TYPEDEF),
   ("PCF_IN_CONST_ARGS", PCF_IN_CONST_ARGS),
   ("PCF_LVALUE", PCF_LVALUE),
   ("PCF_IN_ARRAY_ASSIGN", PCF_IN_ARRAY_ASSIGN),
   ("PCF_IN_CLASS", PCF_IN_CLASS),
   ("PCF_IN_NAMESPACE", PCF_IN_NAMESPACE),
   ("PCF_IN_FOR", PCF_IN_FOR),
   ("PCF_ONE_LINER", PCF_ONE_LINER),
   ("PCF_ONE_CLASS", PCF_ONE_CLASS)]

/-- The names of the macros of `pcf_defines` whose value is `v`. -/
def pcf_defines_with_value (v : Nat) : List String :=
  (pcf_defines.filter (fun d => d.2 == v)).map (fun d => d.1)

/-- The table `pcf_names` (lines 116-142). -/
def pcf_names : List String :=
  ["STMT_START",
   "EXPR_START",
   "IN_PREPROC",
   "DONT_INDENT",
   "MFC_PAREN",
   "VAR_DEF",
   "VAR_1ST",
   "VAR_INLINE",
   "IN_ENUM",
   "IN_FCN_DEF",
   "IN_FCN_CALL",
   "IN_SPAREN",
   "RIGHT_COMMENT",
   "OLD_FCN_PARAMS",
   "WAS_ALIGNED",
   "OPTIONAL",
   "IN_TYPEDEF",
   "IN_CONST_ARGS",
   "LVALUE",
   "IN_ARRAY_ASSIGN",
   "IN_CLASS",
   "IN_NAMESPACE",
   "IN_FOR",
   "ONE_LINER"]

/-! ## Language flags (lines 168-182) -/

def LANG_C : Nat := 0x01
def LANG_CPP : Nat := 0x02
def LANG_D : Nat := 0x04
def LANG_CS : Nat := 0x08
def LANG_JAVA : Nat := 0x10
def LANG_OC : Nat := 0x20
def LANG_PAWN : Nat := 0x40
def LANG_ALLC : Nat := 0x3f
def LANG_ALL : Nat := 0x7f
def FLAG_PP : Nat := 0x80

/-- The width of the `UINT8 lang_flags` fields (lines 202 and 247). -/
def LANG_FLAGS_WIDTH : Nat := 8

/-- Storing a value into a `UINT8` field. -/
def to_uint8 (n : Nat) : Nat := n % 2 ^ LANG_FLAGS_WIDTH

/-! ## Brace stages and pattern classes (lines 28-40, 187-196) -/

/-- Brace stage enum used in brace_cleanup. -/
inductive brstage_e
  | BS_NONE
  | BS_PAREN1
  | BS_OP_PAREN1
  | BS_WOD_PAREN
  | BS_WOD_SEMI
  | BS_BRACE_DO
  | BS_BRACE2
  | BS_ELSE
  | BS_ELSEIF
  | BS_WHILE
  deriving DecidableEq, Repr, Inhabited

/-- Pattern classes for special keywords. -/
inductive pattern_class
  | PATCLS_NONE
  | PATCLS_BRACED
  | PATCLS_PBRACED
  | PATCLS_OPBRACED
  | PATCLS_VBRACED
  | PATCLS_PAREN
  | PATCLS_ELSE
  deriving DecidableEq, Repr, Inhabited

/-! ## Record types

A C array `T a[n]` is a list of exactly `n` elements; it is indexed with a
C `int`. The token type `c_token_t`, the option value type `op_val_t`, the
`FILE` type and the constants `LE_AUTO` and `UO_option_count` come from
headers that are included by this one; the records take them as
parameters. Pointers to chunks are optional chunk indices. -/

/-- A C array of `n` elements. -/
structure CArray (α : Type) (n : Nat) where
  data : List α
  size_eq : data.length = n

/-- The array whose `n` elements are all `a`. -/
def CArray.fill {α : Type} (n : Nat) (a : α) : CArray α n :=
  ⟨List.replicate n a, List.length_replicate n a⟩

instance {α : Type} {n : Nat} [Inhabited α] : Inhabited (CArray α n) :=
  ⟨CArray.fill n default⟩

/-- The element `a[i]` for a C `int` index `i`, when there is one. -/
def CArray.at? {α : Type} {n : Nat} (a : CArray α n) (i : Int) : Option α :=
  if i < 0 then none else a.data[i.toNat]?

/-- An index is in bounds when the array has an element there. -/
def CArray.in_bounds {α : Type} {n : Nat} (a : CArray α n) (i : Int) : Bool :=
  (a.at? i).isSome

/-- Structure for counting nested level (lines 46-59). -/
structure paren_stack_entry (c_token_t : Type) where
  type : c_token_t
  level : Int
  open_line : Int
  brace_indent : Int
  indent : Int
  indent_tmp : Int
  indent_tab : Int
  ref : Int
  parent : c_token_t
  stage : brstage_e
  in_preproc : Bool
  deriving Inhabited

/-- The parse frame (lines 62-80). -/
structure parse_frame (c_token_t : Type) where
  level : Int
  brace_level : Int
  pp_level : Int
  sparen_count : Int
  pse : CArray (paren_stack_entry c_token_t) 128
  pse_tos : Int
  paren_count : Int
  in_ifdef : Int
  stmt_count : Int
  expr_count : Int
  maybe_decl : Bool
  maybe_cast : Bool
  deriving Inhabited

/-- The main type of the program (lines 146-166). -/
structure chunk_t (c_token_t : Type) where
  next : Option Nat
  prev : Option Nat
  type : c_token_t
  parent_type : c_token_t
  orig_line : Nat
  orig_col : Nat
  orig_col_end : Nat
  flags : Nat
  column : Int
  column_indent : Int
  nl_count : Int
  level : Int
  brace_level : Int
  pp_level : Int
  after_tab : Bool
  len : Int
  str : String
  deriving Inhabited

/-- The keyword table entry (lines 198-203). -/
structure chunk_tag_t (c_token_t : Type) where
  tag : String
  type : c_token_t
  lang_flags : Nat
  deriving Inhabited

/-- An alignment slot (lines 220-225). -/
structure align_t (c_token_t : Type) where
  col : Int
  type : c_token_t
  len : Int
  deriving Inhabited

/-- The parse context (lines 240-279). -/
structure cp_data (c_token_t op_val_t FILE : Type) (LE_AUTO UO_option_count : Nat) where
  fout : Option FILE
  error_count : Nat
  filename : String
  lang_flags : Nat
  line_number : Nat
  column : Nat
  le_counts : CArray Nat LE_AUTO
  newline : CArray Char 5
  consumed : Bool
  did_newline : Int
  in_preproc : c_token_t
  preproc_ncnl_count : Int
  changes : Int
  list_chunks : chunk_t c_token_t
  al : CArray (align_t c_token_t) 80
  al_cnt : Int
  al_c99_array : Bool
  settings : CArray op_val_t UO_option_count
  max_option_name_len : Int
  frames : CArray (parse_frame c_token_t) 16
  frame_count : Int
  pp_level : Int
  deriving Inhabited

/-! ## The classification state machine

The function that drives `brstage_e` (brace_cleanup) is not part of the
sources; the header declares the stack it works on: the entries
`paren_stack_entry`, each with its own `stage`, in the array `pse[128]` of a
parse frame. The definitions of this section are written from section 4.2 of
the specification over that stack. A keyword pushes an entry for its
construct, an open symbol pushes an entry for its group, a close symbol pops
the entry of the group it matches and then drives the stage of the entry
below; a push onto a full stack is the fatal abort. -/

/-- Modelled from the spec: the token kinds of `c_token_t` (token_enum.h, not
part of the sources) that section 4.2 names: the keywords `if`, `for`,
`switch`, `while`, `catch`, `do`, `else` and `namespace`, the open and close
brace and paren, the semicolon, and any other token; `CT_NONE` is the
default parent kind (line 151). -/
inductive c_token_t
  | CT_NONE
  | CT_IF
  | CT_FOR
  | CT_SWITCH
  | CT_WHILE
  | CT_CATCH
  | CT_DO
  | CT_ELSE
  | CT_NAMESPACE
  | CT_BRACE_OPEN
  | CT_BRACE_CLOSE
  | CT_PAREN_OPEN
  | CT_PAREN_CLOSE
  | CT_SEMICOLON
  | CT_WORD
  deriving DecidableEq, Repr, Inhabited

open brstage_e pattern_class c_token_t

/-- Modelled from the spec: the pattern class of a keyword (the function
get_token_pattern_class is not part of the sources), after the comments of
lines 190-195 and section 4.2: `do` is keyword + braced statement;
`switch`, `if`, `for`, `while` are keyword + parens + braced statement;
`catch` is keyword + optional parens + braced statement; `namespace` is
keyword + value + braced statement; `else` is the special case. -/
def get_token_pattern_class : c_token_t → pattern_class
  | CT_DO => PATCLS_BRACED
  | CT_SWITCH => PATCLS_PBRACED
  | CT_IF => PATCLS_PBRACED
  | CT_FOR => PATCLS_PBRACED
  | CT_WHILE => PATCLS_PBRACED
  | CT_CATCH => PATCLS_OPBRACED
  | CT_NAMESPACE => PATCLS_VBRACED
  | CT_ELSE => PATCLS_ELSE
  | _ => PATCLS_NONE

/-- Modelled from the spec: an opening brace or paren. -/
def is_open : c_token_t → Bool
  | CT_BRACE_OPEN => true
  | CT_PAREN_OPEN => true
  | _ => false

/-- Modelled from the spec: a closing brace or paren. -/
def is_close : c_token_t → Bool
  | CT_BRACE_CLOSE => true
  | CT_PAREN_CLOSE => true
  | _ => false

/-- Modelled from the spec: `closes c o` holds when `c` is the close symbol
that matches the open symbol `o`. -/
def closes : c_token_t → c_token_t → Bool
  | CT_BRACE_CLOSE, CT_BRACE_OPEN => true
  | CT_PAREN_CLOSE, CT_PAREN_OPEN => true
  | _, _ => false

/-- The number of entries of `pse` (line 70). -/
def PSE_SIZE : Nat := 128

/-- The paren stack of a parse frame, top entry first: the entries
`pse[pse_tos]`, `pse[pse_tos - 1]`, ... of lines 70-71. -/
abbrev pse_stack : Type := List (paren_stack_entry c_token_t)

/-- Modelled from the spec: a new stack entry with its opening type, the
kind of the enclosing entry as parent, and its stage. The line and indent
fields are not driven by the stage machine and stay 0. -/
def pse_entry (type parent : c_token_t) (stage : brstage_e) : paren_stack_entry c_token_t :=
  { type := type, level := 0, open_line := 0, brace_indent := 0, indent := 0,
    indent_tmp := 0, indent_tab := 0, ref := 0, parent := parent, stage := stage,
    in_preproc := false }

/-- The stage of the top entry; `BS_NONE` (no pending construct) on the
empty stack. -/
def top_stage : pse_stack → brstage_e
  | [] => BS_NONE
  | e :: _ => e.stage

/-- The type of the top entry; `CT_NONE` on the empty stack. -/
def top_type : pse_stack → c_token_t
  | [] => CT_NONE
  | e :: _ => e.type

/-- Sets the type and the stage of the top entry. -/
def set_top (type : c_token_t) (stage : brstage_e) : pse_stack → pse_stack
  | [] => []
  | e :: rest => { e with type := type, stage := stage } :: rest

/-- Modelled from the spec: pushes an entry; more simultaneous nesting than
the stack holds is the fatal abort `none` (section 4.2, failure
semantics). -/
def pse_push (stk : pse_stack) (type : c_token_t) (stage : brstage_e) : Option pse_stack :=
  if stk.length < PSE_SIZE then some (pse_entry type (top_type stk) stage :: stk) else none

/-- Modelled from the spec: the stage step of the entry that comes to the
top when the group `o` above it was closed (section 4.2): `PAREN1` and
`OP_PAREN1` go to `BRACE2` on their close paren; `BRACE2` goes to `ELSE`
on its close brace when the owning keyword is `if` and otherwise the entry
is popped; `BRACE_DO` goes to `WHILE` on its close brace; `WOD_PAREN` goes
to `WOD_SEMI` on its close paren; any other entry is left alone. -/
def close_stage (o : c_token_t) : pse_stack → pse_stack
  | [] => []
  | e :: rest =>
    match e.stage, o with
    | BS_PAREN1, CT_PAREN_OPEN => { e with stage := BS_BRACE2 } :: rest
    | BS_OP_PAREN1, CT_PAREN_OPEN => { e with stage := BS_BRACE2 } :: rest
    | BS_BRACE2, CT_BRACE_OPEN =>
      if e.type = CT_IF then { e with stage := BS_ELSE } :: rest else rest
    | BS_BRACE_DO, CT_BRACE_OPEN => { e with stage := BS_WHILE } :: rest
    | BS_WOD_PAREN, CT_PAREN_OPEN => { e with stage := BS_WOD_SEMI } :: rest
    | _, _ => e :: rest

/-- Modelled from the spec: before the token `t` is looked at, an entry in
`WOD_SEMI` is popped (back to `NONE`, on the semicolon and also when it is
missing, section 9), and an entry in `ELSE` is popped when `t` is not
`else` (back to `NONE` if no `else` follows). -/
def resolve_top (t : c_token_t) : pse_stack → pse_stack
  | [] => []
  | e :: rest =>
    if e.stage = BS_WOD_SEMI then rest
    else if e.stage = BS_ELSE ∧ t ≠ CT_ELSE then rest
    else e :: rest

/-- Modelled from the spec: the effect of the token `t`, followed by `next`,
on the stack (section 4.2). `while` after the brace of a `do` goes to
`WOD_PAREN`; `else` in stage `ELSE` goes to `ELSEIF` when followed by `if`
and to `BRACE2` when followed by an open brace, and an incomplete else
chain is dropped; `if` in stage `ELSEIF` re-enters `PAREN1`; any other
keyword pushes the entry of its construct, in `PAREN1`, `OP_PAREN1`,
`BRACE_DO`, or `BRACE2` for a keyword + value + brace construct; an open
symbol pushes the entry of its group, and an open brace met in `OP_PAREN1`
first moves that entry to `BRACE2`; a close symbol that matches the top
entry pops it and steps the entry below, and an unmatched close symbol
pops nothing; any other token leaves the stack alone. -/
def brace_dispatch (stk : pse_stack) (t : c_token_t) (next : Option c_token_t) :
    Option pse_stack :=
  if t = CT_WHILE ∧ top_stage stk = BS_WHILE then
    some (set_top (top_type stk) BS_WOD_PAREN stk)
  else if t = CT_ELSE ∧ top_stage stk = BS_ELSE then
    if next = some CT_IF then some (set_top CT_ELSE BS_ELSEIF stk)
    else if next = some CT_BRACE_OPEN then some (set_top CT_ELSE BS_BRACE2 stk)
    else some stk.tail
  else if t = CT_IF ∧ top_stage stk = BS_ELSEIF then
    some (set_top CT_IF BS_PAREN1 stk)
  else
    match get_token_pattern_class t with
    | PATCLS_PBRACED => pse_push stk t BS_PAREN1
    | PATCLS_OPBRACED => pse_push stk t BS_OP_PAREN1
    | PATCLS_BRACED => pse_push stk t BS_BRACE_DO
    | PATCLS_VBRACED => pse_push stk t BS_BRACE2
    | _ =>
      if is_open t then
        if t = CT_BRACE_OPEN ∧ top_stage stk = BS_OP_PAREN1 then
          pse_push (set_top (top_type stk) BS_BRACE2 stk) t BS_NONE
        else pse_push stk t BS_NONE
      else if is_close t then
        match stk with
        | [] => some []
        | e :: rest => if closes t e.type then some (close_stage e.type rest) else some (e :: rest)
      else some stk

/-- Modelled from the spec: one step of the classification machine on the
token `t` followed by `next`; `none` is the fatal abort. -/
def brace_step (stk : pse_stack) (t : c_token_t) (next : Option c_token_t) :
    Option pse_stack :=
  brace_dispatch (resolve_top t stk) t next

/-- The stage of the entry at height `k` above the bottom of the stack;
`BS_NONE` (no pending construct) when the stack has no entry there. -/
def stage_at (k : Nat) (stk : pse_stack) : brstage_e :=
  match stk.reverse[k]? with
  | some e => e.stage
  | none => BS_NONE

/-- Records a visit of `st` after the stages `seen`; staying in the last
stage is not a new visit. -/
def note_stage (seen : List brstage_e) (st : brstage_e) : List brstage_e :=
  if seen.getLast? = some st then seen else seen ++ [st]

/-- Modelled from the spec: runs the machine from the stack `stk` on the
tokens `ts` and gives the stages visited by the entry at height `k`, after
the stages `seen`, with the final stack; `none` when the run aborts. -/
def brace_visits (k : Nat) :
    pse_stack → List brstage_e → List c_token_t → Option (List brstage_e × pse_stack)
  | stk, seen, [] => some (seen, stk)
  | stk, seen, t :: ts =>
    match brace_step stk t ts.head? with
    | none => none
    | some s2 => brace_visits k s2 (note_stage seen (stage_at k s2)) ts

/-- Modelled from the spec: the run on the tokens `ts` of a construct that
starts on the stack `stk`: the stages of the entry of the construct, which
is pushed at height `stk.length`, and the final stack. -/
def brace_trace (stk : pse_stack) (ts : List c_token_t) :
    Option (List brstage_e × pse_stack) :=
  brace_visits stk.length stk [stage_at stk.length stk] ts

/-- The token sequence `do { body } while ( cond ) ;`. -/
def do_while_tokens (body cond : List c_token_t) : List c_token_t :=
  [CT_DO, CT_BRACE_OPEN] ++ body ++ [CT_BRACE_CLOSE, CT_WHILE, CT_PAREN_OPEN] ++ cond ++
    [CT_PAREN_CLOSE, CT_SEMICOLON]

/-- Modelled from the spec: token sequences built from the constructs of
section 4.2 with their braces in place. Each constructor is one item
followed by the rest of the sequence. -/
inductive code
  | done
  | word (rest : code)
  | semi (rest : code)
  | stray (t : c_token_t) (rest : code)
  | paren (inner rest : code)
  | brace (inner rest : code)
  | cond_stmt (kw : c_token_t) (c b rest : code)
  | if_else (c b e rest : code)
  | if_else_if (c b tail : code)
  | catch_stmt (b rest : code)
  | catch_paren (c b rest : code)
  | namespace_stmt (b rest : code)
  | do_stmt (b c rest : code)
  deriving Repr, Inhabited

/-- The tokens of a sequence: `word` is any other token, `semi` a
semicolon, `stray t` the close symbol `t` with no group to close,
`paren` and `brace` a free group, `cond_stmt kw` is `kw ( c ) { b }`,
`if_else` is `if ( c ) { b } else { e }`, `if_else_if` is
`if ( c ) { b } else` before a sequence that starts with `if`,
`catch_stmt` is `catch { b }`, `catch_paren` is `catch ( c ) { b }`,
`namespace_stmt` is `namespace w { b }` and `do_stmt` is
`do { b } while ( c ) ;`. -/
def code.tokens : code → List c_token_t
  | .done => []
  | .word rest => CT_WORD :: rest.tokens
  | .semi rest => CT_SEMICOLON :: rest.tokens
  | .stray t rest => t :: rest.tokens
  | .paren inner rest => CT_PAREN_OPEN :: (inner.tokens ++ CT_PAREN_CLOSE :: rest.tokens)
  | .brace inner rest => CT_BRACE_OPEN :: (inner.tokens ++ CT_BRACE_CLOSE :: rest.tokens)
  | .cond_stmt kw c b rest =>
    kw :: CT_PAREN_OPEN :: (c.tokens ++ CT_PAREN_CLOSE :: CT_BRACE_OPEN ::
      (b.tokens ++ CT_BRACE_CLOSE :: rest.tokens))
  | .if_else c b e rest =>
    CT_IF :: CT_PAREN_OPEN :: (c.tokens ++ CT_PAREN_CLOSE :: CT_BRACE_OPEN ::
      (b.tokens ++ CT_BRACE_CLOSE :: CT_ELSE :: CT_BRACE_OPEN ::
        (e.tokens ++ CT_BRACE_CLOSE :: rest.tokens)))
  | .if_else_if c b tail =>
    CT_IF :: CT_PAREN_OPEN :: (c.tokens ++ CT_PAREN_CLOSE :: CT_BRACE_OPEN ::
      (b.tokens ++ CT_BRACE_CLOSE :: CT_ELSE :: tail.tokens))
  | .catch_stmt b rest =>
    CT_CATCH :: CT_BRACE_OPEN :: (b.tokens ++ CT_BRACE_CLOSE :: rest.tokens)
  | .catch_paren c b rest =>
    CT_CATCH :: CT_PAREN_OPEN :: (c.tokens ++ CT_PAREN_CLOSE :: CT_BRACE_OPEN ::
      (b.tokens ++ CT_BRACE_CLOSE :: rest.tokens))
  | .namespace_stmt b rest =>
    CT_NAMESPACE :: CT_WORD :: CT_BRACE_OPEN :: (b.tokens ++ CT_BRACE_CLOSE :: rest.tokens)
  | .do_stmt b c rest =>
    CT_DO :: CT_BRACE_OPEN :: (b.tokens ++ CT_BRACE_CLOSE :: CT_WHILE :: CT_PAREN_OPEN ::
      (c.tokens ++ CT_PAREN_CLOSE :: CT_SEMICOLON :: rest.tokens))

/-- The sequence is well formed inside a group opened by `ctx` (`CT_NONE`
outside every group): a stray symbol is a close symbol that does not match
`ctx`, the keyword of `cond_stmt` is `if`, `for`, `switch` or `while`, and
the sequence after `else` in `if_else_if` starts with `if`. -/
def code.wf (ctx : c_token_t) : code → Bool
  | .done => true
  | .word rest => rest.wf ctx
  | .semi rest => rest.wf ctx
  | .stray t rest => is_close t && !closes t ctx && rest.wf ctx
  | .paren inner rest => inner.wf CT_PAREN_OPEN && rest.wf ctx
  | .brace inner rest => inner.wf CT_BRACE_OPEN && rest.wf ctx
  | .cond_stmt kw c b rest =>
    decide (get_token_pattern_class kw = PATCLS_PBRACED) && c.wf CT_PAREN_OPEN &&
      b.wf CT_BRACE_OPEN && rest.wf ctx
  | .if_else c b e rest =>
    c.wf CT_PAREN_OPEN && b.wf CT_BRACE_OPEN && e.wf CT_BRACE_OPEN && rest.wf ctx
  | .if_else_if c b tail =>
    c.wf CT_PAREN_OPEN && b.wf CT_BRACE_OPEN && decide (tail.tokens.head? = some CT_IF) &&
      tail.wf ctx
  | .catch_stmt b rest => b.wf CT_BRACE_OPEN && rest.wf ctx
  | .catch_paren c b rest => c.wf CT_PAREN_OPEN && b.wf CT_BRACE_OPEN && rest.wf ctx
  | .namespace_stmt b rest => b.wf CT_BRACE_OPEN && rest.wf ctx
  | .do_stmt b c rest => b.wf CT_BRACE_OPEN && c.wf CT_PAREN_OPEN && rest.wf ctx

/-- The number of stack entries the sequence needs above the stack it
starts on: one for each construct and one for each group that are open at
the same time. -/
def code.need : code → Nat
  | .done => 0
  | .word rest => rest.need
  | .semi rest => rest.need
  | .stray _ rest => rest.need
  | .paren inner rest => max (1 + inner.need) rest.need
  | .brace inner rest => max (1 + inner.need) rest.need
  | .cond_stmt _ c b rest => max (max (2 + c.need) (2 + b.need)) rest.need
  | .if_else c b e rest => max (max (max (2 + c.need) (2 + b.need)) (2 + e.need)) rest.need
  | .if_else_if c b tail => max (max (2 + c.need) (2 + b.need)) tail.need
  | .catch_stmt b rest => max (2 + b.need) rest.need
  | .catch_paren c b rest => max (max (2 + c.need) (2 + b.need)) rest.need
  | .namespace_stmt b rest => max (2 + b.need) rest.need
  | .do_stmt b c rest => max (max (2 + b.need) (2 + c.need)) rest.need

/-! ## Theorems -/

/-- The copy mask has no bit at position 24 or above. -/
theorem PCF_COPY_FLAGS_lt : PCF_COPY_FLAGS < 2 ^ 24 := by decide

/-- Bit `i` of the copy mask is set exactly at the ten propagated positions. -/
theorem testBit_PCF_COPY_FLAGS (i : Nat) :
    PCF_COPY_FLAGS.testBit i = decide (i ∈ [2, 8, 9, 10, 11, 16, 19, 20, 21, 22]) := by
  by_cases h : i < 24
  · interval_cases i <;> rfl
  · have h24 : 24 ≤ i := Nat.le_of_not_lt h
    have hlt : PCF_COPY_FLAGS < 2 ^ i :=
      lt_of_lt_of_le PCF_COPY_FLAGS_lt (Nat.pow_le_pow_right (by decide) h24)
    rw [Nat.testBit_lt_two_pow hlt]
    symm
    simp only [decide_eq_false_iff_not, List.mem_cons, List.mem_singleton, List.not_mem_nil,
      or_false]
    omega

/-! ### Bitwise helpers -/

/-- A word that contains `a ||| b` contains `a` and `b`, and conversely. -/
theorem and_or_eq_iff (f a b : Nat) :
    f &&& (a ||| b) = a ||| b ↔ f &&& a = a ∧ f &&& b = b := by
  constructor
  · intro h
    constructor
    · apply Nat.eq_of_testBit_eq
      intro i
      have hi := congrArg (fun x => Nat.testBit x i) h
      simp only [Nat.testBit_and, Nat.testBit_or] at hi ⊢
      cases hf : f.testBit i <;> cases ha : a.testBit i <;> cases hb : b.testBit i <;>
        simp [hf, ha, hb] at hi ⊢
    · apply Nat.eq_of_testBit_eq
      intro i
      have hi := congrArg (fun x => Nat.testBit x i) h
      simp only [Nat.testBit_and, Nat.testBit_or] at hi ⊢
      cases hf : f.testBit i <;> cases ha : a.testBit i <;> cases hb : b.testBit i <;>
        simp [hf, ha, hb] at hi ⊢
  · rintro ⟨ha, hb⟩
    rw [Nat.and_or_distrib_left, ha, hb]

/-- A single bit is either absent from a word or wholly present. -/
theorem and_two_pow_ne_zero_iff (f k : Nat) :
    f &&& 2 ^ k ≠ 0 ↔ f &&& 2 ^ k = 2 ^ k := by
  constructor
  · intro h
    apply Nat.eq_of_testBit_eq
    intro i
    rw [Nat.testBit_and, Nat.testBit_two_pow]
    by_cases hki : k = i
    · subst hki
      cases hf : f.testBit k
      · exfalso
        apply h
        apply Nat.eq_of_testBit_eq
        intro j
        rw [Nat.testBit_and, Nat.testBit_two_pow]
        by_cases hkj : k = j
        · subst hkj
          simp [hf]
        · simp [hkj]
      · simp
    · simp [hki]
  · intro h h0
    rw [h0] at h
    exact absurd h.symm (Nat.pos_iff_ne_zero.mp (Nat.two_pow_pos k))

/-- A part of a word that lies inside `o` and is absorbed by `p`, where `p`
and `o` are disjoint, is empty. -/
theorem and_eq_zero_of_absorbed (f p o : Nat) (hpo : p &&& o = 0)
    (h : p ||| (f &&& o) = p) : f &&& o = 0 := by
  apply Nat.eq_of_testBit_eq
  intro i
  have hi := congrArg (fun x => Nat.testBit x i) h
  have hd := congrArg (fun x => Nat.testBit x i) hpo
  simp only [Nat.testBit_and, Nat.testBit_or, Nat.zero_testBit] at hi hd ⊢
  cases hf : f.testBit i <;> cases hp : p.testBit i <;> cases ho : o.testBit i <;>
    simp [hf, hp, ho] at hi hd ⊢

/-! ### Flag propagation -/

/-- C1: for every flag word `f` (any natural number, so every 32-bit word),
bit `i` of `f & PCF_COPY_FLAGS` is set iff
it is set in `f` and `1 << i` is one of the ten propagated flags; each of the
ten propagated flags is set in the result iff it is set in `f`; and
`STMT_START`, `EXPR_START`, `VAR_DEF`, `VAR_1ST` and `ONE_LINER` are clear in
the result. -/
theorem copy_flags_exact (f : Nat) :
    (∀ i, (f &&& PCF_COPY_FLAGS).testBit i = true ↔
      (f.testBit i = true ∧
        1 <<< i ∈ [PCF_IN_PREPROC, PCF_IN_SPAREN, PCF_IN_ENUM, PCF_IN_FCN_DEF,
          PCF_IN_FCN_CALL, PCF_IN_TYPEDEF, PCF_IN_ARRAY_ASSIGN, PCF_IN_CLASS,
          PCF_IN_NAMESPACE, PCF_IN_FOR])) ∧
    ((f &&& PCF_COPY_FLAGS) &&& PCF_IN_PREPROC = f &&& PCF_IN_PREPROC ∧
     (f &&& PCF_COPY_FLAGS) &&& PCF_IN_SPAREN = f &&& PCF_IN_SPAREN ∧
     (f &&& PCF_COPY_FLAGS) &&& PCF_IN_ENUM = f &&& PCF_IN_ENUM ∧
     (f &&& PCF_COPY_FLAGS) &&& PCF_IN_FCN_DEF = f &&& PCF_IN_FCN_DEF ∧
     (f &&& PCF_COPY_FLAGS) &&& PCF_IN_FCN_CALL = f &&& PCF_IN_FCN_CALL ∧
     (f &&& PCF_COPY_FLAGS) &&& PCF_IN_TYPEDEF = f &&& PCF_IN_TYPEDEF ∧
     (f &&& PCF_COPY_FLAGS) &&& PCF_IN_ARRAY_ASSIGN = f &&& PCF_IN_ARRAY_ASSIGN ∧
     (f &&& PCF_COPY_FLAGS) &&& PCF_IN_CLASS = f &&& PCF_IN_CLASS ∧
     (f &&& PCF_COPY_FLAGS) &&& PCF_IN_NAMESPACE = f &&& PCF_IN_NAMESPACE ∧
     (f &&& PCF_COPY_FLAGS) &&& PCF_IN_FOR = f &&& PCF_IN_FOR) ∧
    ((f &&& PCF_COPY_FLAGS) &&& PCF_STMT_START = 0 ∧
     (f &&& PCF_COPY_FLAGS) &&& PCF_EXPR_START = 0 ∧
     (f &&& PCF_COPY_FLAGS) &&& PCF_VAR_DEF = 0 ∧
     (f &&& PCF_COPY_FLAGS) &&& PCF_VAR_1ST = 0 ∧
     (f &&& PCF_COPY_FLAGS) &&& PCF_ONE_LINER = 0) := by
  have keep : ∀ p, PCF_COPY_FLAGS &&& p = p → (f &&& PCF_COPY_FLAGS) &&& p = f &&& p := by
    intro p hp
    rw [Nat.and_assoc, hp]
  have drop : ∀ p, PCF_COPY_FLAGS &&& p = 0 → (f &&& PCF_COPY_FLAGS) &&& p = 0 := by
    intro p hp
    rw [Nat.and_assoc, hp, Nat.and_zero]
  refine ⟨?_, ?_, ?_⟩
  · intro i
    rw [Nat.testBit_and, testBit_PCF_COPY_FLAGS, Bool.and_eq_true, decide_eq_true_eq]
    have hpos : 1 <<< i ∈ [PCF_IN_PREPROC, PCF_IN_SPAREN, PCF_IN_ENUM, PCF_IN_FCN_DEF,
          PCF_IN_FCN_CALL, PCF_IN_TYPEDEF, PCF_IN_ARRAY_ASSIGN, PCF_IN_CLASS,
          PCF_IN_NAMESPACE, PCF_IN_FOR] ↔ i ∈ [2, 8, 9, 10, 11, 16, 19, 20, 21, 22] := by
      simp only [PCF_IN_PREPROC, PCF_IN_SPAREN, PCF_IN_ENUM, PCF_IN_FCN_DEF,
          PCF_IN_FCN_CALL, PCF_IN_TYPEDEF, PCF_IN_ARRAY_ASSIGN, PCF_IN_CLASS,
          PCF_IN_NAMESPACE, PCF_IN_FOR, Nat.one_shiftLeft, List.mem_cons, List.mem_singleton,
          List.not_mem_nil, or_false, (Nat.pow_right_injective (le_refl 2)).eq_iff]
      omega
    rw [hpos]
  · exact ⟨keep _ (by decide), keep _ (by decide), keep _ (by decide), keep _ (by decide),
      keep _ (by decide), keep _ (by decide), keep _ (by decide), keep _ (by decide),
      keep _ (by decide), keep _ (by decide)⟩
  · exact ⟨drop _ (by decide), drop _ (by decide), drop _ (by decide), drop _ (by decide),
      drop _ (by decide)⟩

/-- C9: flag propagation is idempotent: masking an already masked flag word
with `PCF_COPY_FLAGS` again gives the same word. -/
theorem copy_flags_idempotent (f : Nat) :
    (f &&& PCF_COPY_FLAGS) &&& PCF_COPY_FLAGS = f &&& PCF_COPY_FLAGS := by
  rw [Nat.and_assoc, Nat.and_self]

/-- C2, as stated, fails: the flag word with `IN_PREPROC`, `IN_FCN_CALL` and
`IN_ENUM` set has both `IN_PREPROC` and `IN_FCN_CALL` set, and its copied
flags keep `IN_ENUM` too, so they are not `PCF_IN_PREPROC | PCF_IN_FCN_CALL`. -/
theorem copy_flags_keeps_third_context :
    (PCF_IN_PREPROC ||| PCF_IN_FCN_CALL ||| PCF_IN_ENUM) &&& PCF_IN_PREPROC ≠ 0 ∧
    (PCF_IN_PREPROC ||| PCF_IN_FCN_CALL ||| PCF_IN_ENUM) &&& PCF_IN_FCN_CALL ≠ 0 ∧
    (PCF_IN_PREPROC ||| PCF_IN_FCN_CALL ||| PCF_IN_ENUM) &&& PCF_COPY_FLAGS =
      PCF_IN_PREPROC ||| PCF_IN_FCN_CALL ||| PCF_IN_ENUM ∧
    (PCF_IN_PREPROC ||| PCF_IN_FCN_CALL ||| PCF_IN_ENUM) &&& PCF_COPY_FLAGS ≠
      PCF_IN_PREPROC ||| PCF_IN_FCN_CALL := by
  decide

/-- C2, amended: for every flag word `f` with both `IN_PREPROC` and
`IN_FCN_CALL` set, the copied flags `f & PCF_COPY_FLAGS` have those two bits
set and none of `STMT_START`, `EXPR_START`, `VAR_DEF`, `VAR_1ST`,
`ONE_LINER`; they equal `PCF_IN_PREPROC | PCF_IN_FCN_CALL` exactly when `f`
has none of the other eight propagated flags set. -/
theorem copy_flags_preproc_fcn_call (f : Nat)
    (hp : f &&& PCF_IN_PREPROC ≠ 0) (hc : f &&& PCF_IN_FCN_CALL ≠ 0) :
    (f &&& PCF_COPY_FLAGS) &&& PCF_IN_PREPROC = PCF_IN_PREPROC ∧
    (f &&& PCF_COPY_FLAGS) &&& PCF_IN_FCN_CALL = PCF_IN_FCN_CALL ∧
    (f &&& PCF_COPY_FLAGS) &&& PCF_STMT_START = 0 ∧
    (f &&& PCF_COPY_FLAGS) &&& PCF_EXPR_START = 0 ∧
    (f &&& PCF_COPY_FLAGS) &&& PCF_VAR_DEF = 0 ∧
    (f &&& PCF_COPY_FLAGS) &&& PCF_VAR_1ST = 0 ∧
    (f &&& PCF_COPY_FLAGS) &&& PCF_ONE_LINER = 0 ∧
    (f &&& PCF_COPY_FLAGS = PCF_IN_PREPROC ||| PCF_IN_FCN_CALL ↔
      f &&& (PCF_IN_SPAREN ||| PCF_IN_ENUM ||| PCF_IN_FCN_DEF ||| PCF_IN_TYPEDEF |||
        PCF_IN_ARRAY_ASSIGN ||| PCF_IN_CLASS ||| PCF_IN_NAMESPACE ||| PCF_IN_FOR) = 0) := by
  have hp2 : f &&& PCF_IN_PREPROC = PCF_IN_PREPROC :=
    (and_two_pow_ne_zero_iff f 2).mp (by simpa [PCF_IN_PREPROC, Nat.one_shiftLeft] using hp)
  have hc2 : f &&& PCF_IN_FCN_CALL = PCF_IN_FCN_CALL :=
    (and_two_pow_ne_zero_iff f 10).mp (by simpa [PCF_IN_FCN_CALL, Nat.one_shiftLeft] using hc)
  have hpc : f &&& (PCF_IN_PREPROC ||| PCF_IN_FCN_CALL) = PCF_IN_PREPROC ||| PCF_IN_FCN_CALL :=
    (and_or_eq_iff f _ _).mpr ⟨hp2, hc2⟩
  have drop : ∀ p, PCF_COPY_FLAGS &&& p = 0 → (f &&& PCF_COPY_FLAGS) &&& p = 0 := by
    intro p h0
    rw [Nat.and_assoc, h0, Nat.and_zero]
  have split : PCF_COPY_FLAGS = (PCF_IN_PREPROC ||| PCF_IN_FCN_CALL) |||
      (PCF_IN_SPAREN ||| PCF_IN_ENUM ||| PCF_IN_FCN_DEF ||| PCF_IN_TYPEDEF |||
        PCF_IN_ARRAY_ASSIGN ||| PCF_IN_CLASS ||| PCF_IN_NAMESPACE ||| PCF_IN_FOR) := by
    decide
  refine ⟨?_, ?_, drop _ (by decide), drop _ (by decide), drop _ (by decide),
    drop _ (by decide), drop _ (by decide), ?_⟩
  · rw [Nat.and_assoc, show PCF_COPY_FLAGS &&& PCF_IN_PREPROC = PCF_IN_PREPROC by decide, hp2]
  · rw [Nat.and_assoc, show PCF_COPY_FLAGS &&& PCF_IN_FCN_CALL = PCF_IN_FCN_CALL by decide, hc2]
  · rw [split, Nat.and_or_distrib_left, hpc]
    constructor
    · intro h
      exact and_eq_zero_of_absorbed f _ _ (by decide) h
    · intro h
      rw [h, Nat.or_zero]

/-- The amended C2 at the flag word `0x800425`, which has `IN_PREPROC`,
`IN_FCN_CALL`, `STMT_START`, `VAR_DEF` and `ONE_LINER` set and none of the
other eight propagated flags. -/
theorem copy_flags_preproc_fcn_call_witness :
    (0x800425 &&& PCF_IN_PREPROC ≠ 0 ∧ 0x800425 &&& PCF_IN_FCN_CALL ≠ 0) ∧
    ((0x800425 &&& PCF_COPY_FLAGS) &&& PCF_IN_PREPROC = PCF_IN_PREPROC ∧
    (0x800425 &&& PCF_COPY_FLAGS) &&& PCF_IN_FCN_CALL = PCF_IN_FCN_CALL ∧
    (0x800425 &&& PCF_COPY_FLAGS) &&& PCF_STMT_START = 0 ∧
    (0x800425 &&& PCF_COPY_FLAGS) &&& PCF_EXPR_START = 0 ∧
    (0x800425 &&& PCF_COPY_FLAGS) &&& PCF_VAR_DEF = 0 ∧
    (0x800425 &&& PCF_COPY_FLAGS) &&& PCF_VAR_1ST = 0 ∧
    (0x800425 &&& PCF_COPY_FLAGS) &&& PCF_ONE_LINER = 0 ∧
    (0x800425 &&& PCF_COPY_FLAGS = PCF_IN_PREPROC ||| PCF_IN_FCN_CALL ↔
      0x800425 &&& (PCF_IN_SPAREN ||| PCF_IN_ENUM ||| PCF_IN_FCN_DEF ||| PCF_IN_TYPEDEF |||
        PCF_IN_ARRAY_ASSIGN ||| PCF_IN_CLASS ||| PCF_IN_NAMESPACE ||| PCF_IN_FOR) = 0)) :=
  ⟨⟨by decide, by decide⟩, copy_flags_preproc_fcn_call 0x800425 (by decide) (by decide)⟩

/-! ### Composite and basic flags -/

/-- C6: a flag word contains all of `PCF_VAR_1ST_DEF` iff it has both
`PCF_VAR_DEF` and `PCF_VAR_1ST` set, and all of `PCF_ONE_CLASS` iff it has
both `PCF_ONE_LINER` and `PCF_IN_CLASS` set; bit `i` of a composite is set
iff bit `i` of one of its two components is, so a composite has no bit
outside its components. -/
theorem composite_flags (f : Nat) :
    (f &&& PCF_VAR_1ST_DEF = PCF_VAR_1ST_DEF ↔
      (f &&& PCF_VAR_DEF ≠ 0 ∧ f &&& PCF_VAR_1ST ≠ 0)) ∧
    (f &&& PCF_ONE_CLASS = PCF_ONE_CLASS ↔
      (f &&& PCF_ONE_LINER ≠ 0 ∧ f &&& PCF_IN_CLASS ≠ 0)) ∧
    (∀ i, PCF_VAR_1ST_DEF.testBit i = (PCF_VAR_DEF.testBit i || PCF_VAR_1ST.testBit i)) ∧
    (∀ i, PCF_ONE_CLASS.testBit i = (PCF_ONE_LINER.testBit i || PCF_IN_CLASS.testBit i)) := by
  have h5 : f &&& PCF_VAR_DEF ≠ 0 ↔ f &&& PCF_VAR_DEF = PCF_VAR_DEF := by
    simpa [PCF_VAR_DEF, Nat.one_shiftLeft] using and_two_pow_ne_zero_iff f 5
  have h6 : f &&& PCF_VAR_1ST ≠ 0 ↔ f &&& PCF_VAR_1ST = PCF_VAR_1ST := by
    simpa [PCF_VAR_1ST, Nat.one_shiftLeft] using and_two_pow_ne_zero_iff f 6
  have h23 : f &&& PCF_ONE_LINER ≠ 0 ↔ f &&& PCF_ONE_LINER = PCF_ONE_LINER := by
    simpa [PCF_ONE_LINER, Nat.one_shiftLeft] using and_two_pow_ne_zero_iff f 23
  have h20 : f &&& PCF_IN_CLASS ≠ 0 ↔ f &&& PCF_IN_CLASS = PCF_IN_CLASS := by
    simpa [PCF_IN_CLASS, Nat.one_shiftLeft] using and_two_pow_ne_zero_iff f 20
  refine ⟨?_, ?_, ?_, ?_⟩
  · rw [h5, h6]
    exact and_or_eq_iff f PCF_VAR_DEF PCF_VAR_1ST
  · rw [h23, h20]
    exact and_or_eq_iff f PCF_ONE_LINER PCF_IN_CLASS
  · intro i
    rw [PCF_VAR_1ST_DEF, Nat.testBit_or]
  · intro i
    rw [PCF_ONE_CLASS, Nat.testBit_or]

/-- Any two distinct basic flags are disjoint, and clearing one keeps the
other. -/
theorem pcf_basic_pairwise :
    pcf_basic.Pairwise
      (fun a b => a &&& b = 0 ∧ bitnot32 a &&& b = b ∧ bitnot32 b &&& a = a) := by
  decide

/-- C7: the 24 basic flags are the single bits `1 << 0` to `1 << 23` in
order, so they are pairwise disjoint and together fill exactly bit positions
0 to 23 of the 32-bit flags field; and for every flag word `f` and distinct
basic flags `a` and `b`, setting or clearing `a` in `f` leaves `f & b`
unchanged. -/
theorem pcf_basic_independent :
    pcf_basic = (List.range 24).map (fun i => 1 <<< i) ∧
    pcf_basic.Pairwise (fun a b => a &&& b = 0) ∧
    pcf_basic.foldl (fun x y => x ||| y) 0 = 2 ^ 24 - 1 ∧
    2 ^ 24 - 1 < 2 ^ FLAGS_WIDTH ∧
    (∀ f a b, a ∈ pcf_basic → b ∈ pcf_basic → a ≠ b →
      set_flag f a &&& b = f &&& b ∧ clear_flag f a &&& b = f &&& b) := by
  refine ⟨by decide, by decide, by decide, by decide, ?_⟩
  intro f a b ha hb hab
  have hsymm : Symmetric
      (fun a b : Nat => a &&& b = 0 ∧ bitnot32 a &&& b = b ∧ bitnot32 b &&& a = a) := by
    intro x y h
    exact ⟨by rw [Nat.and_comm]; exact h.1, h.2.2, h.2.1⟩
  have h := pcf_basic_pairwise.forall hsymm ha hb hab
  constructor
  · apply Nat.eq_of_testBit_eq
    intro i
    have hi := congrArg (fun x => Nat.testBit x i) h.1
    simp only [set_flag, Nat.testBit_and, Nat.testBit_or, Nat.zero_testBit] at hi ⊢
    cases hf : f.testBit i <;> cases hta : a.testBit i <;> cases htb : b.testBit i <;>
      simp [hta, htb] at hi ⊢
  · rw [clear_flag, Nat.and_assoc, h.2.1]

/-- C7 at the flag word `0x21` (`STMT_START` and `VAR_DEF` set) with
`a = PCF_VAR_DEF` and `b = PCF_STMT_START`. -/
theorem pcf_basic_independent_witness :
    (PCF_VAR_DEF ∈ pcf_basic ∧ PCF_STMT_START ∈ pcf_basic ∧ PCF_VAR_DEF ≠ PCF_STMT_START) ∧
    (set_flag 0x21 PCF_VAR_DEF &&& PCF_STMT_START = 0x21 &&& PCF_STMT_START ∧
      clear_flag 0x21 PCF_VAR_DEF &&& PCF_STMT_START = 0x21 &&& PCF_STMT_START) :=
  ⟨⟨by decide, by decide, by decide⟩,
    pcf_basic_independent.2.2.2.2 0x21 PCF_VAR_DEF PCF_STMT_START
      (by decide) (by decide) (by decide)⟩

/-- C10: `pcf_names` has 24 entries, and for every `i` from 0 to 23 the one
macro of lines 82-107 whose value is `1 << i` is named `PCF_` followed by
`pcf_names[i]`; index 0 is `STMT_START`, index 11 is `IN_SPAREN` and index
23 is `ONE_LINER`. -/
theorem pcf_names_aligned :
    pcf_names.length = 24 ∧
    (List.range 24).map (fun i => pcf_defines_with_value (1 <<< i)) =
      pcf_names.map (fun n => ["PCF_" ++ n]) ∧
    pcf_names[0]? = some "STMT_START" ∧
    pcf_names[11]? = some "IN_SPAREN" ∧
    pcf_names[23]? = some "ONE_LINER" := by
  decide

/-! ### Language flags -/

/-- C4: the seven dialect constants are the single bits `1 << 0` to
`1 << 6`, pairwise distinct; `LANG_ALL` is the OR of all seven and
`LANG_ALLC` the OR of the six other than `LANG_PAWN`. -/
theorem lang_flags_bits :
    [LANG_C, LANG_CPP, LANG_D, LANG_CS, LANG_JAVA, LANG_OC, LANG_PAWN] =
      (List.range 7).map (fun k => 1 <<< k) ∧
    [LANG_C, LANG_CPP, LANG_D, LANG_CS, LANG_JAVA, LANG_OC, LANG_PAWN].Pairwise
      (fun a b => a ≠ b) ∧
    LANG_ALL = LANG_C ||| LANG_CPP ||| LANG_D ||| LANG_CS ||| LANG_JAVA ||| LANG_OC |||
      LANG_PAWN ∧
    LANG_ALLC = LANG_C ||| LANG_CPP ||| LANG_D ||| LANG_CS ||| LANG_JAVA ||| LANG_OC ∧
    LANG_ALL = LANG_ALLC ||| LANG_PAWN ∧
    LANG_ALLC &&& LANG_PAWN = 0 := by
  decide

/-- C5: `FLAG_PP` is the single bit `1 << 7`, disjoint from `LANG_ALL`; for
every language mask `m`, setting or clearing `FLAG_PP` leaves
`m & LANG_ALL` unchanged; every `m | FLAG_PP` with `m` within `LANG_ALL` is
stored unchanged in the 8-bit `lang_flags` field; and
`LANG_ALL | FLAG_PP = 0xFF`. -/
theorem flag_pp_independent :
    FLAG_PP = 1 <<< 7 ∧
    FLAG_PP &&& LANG_ALL = 0 ∧
    (∀ m, set_flag m FLAG_PP &&& LANG_ALL = m &&& LANG_ALL) ∧
    (∀ m, clear_flag m FLAG_PP &&& LANG_ALL = m &&& LANG_ALL) ∧
    (∀ m, m &&& LANG_ALL = m → to_uint8 (m ||| FLAG_PP) = m ||| FLAG_PP) ∧
    LANG_ALL ||| FLAG_PP = 0xFF := by
  refine ⟨by decide, by decide, ?_, ?_, ?_, by decide⟩
  · intro m
    apply Nat.eq_of_testBit_eq
    intro i
    have hi := congrArg (fun x => Nat.testBit x i) (show FLAG_PP &&& LANG_ALL = 0 by decide)
    simp only [set_flag, Nat.testBit_and, Nat.testBit_or, Nat.zero_testBit] at hi ⊢
    cases hm : m.testBit i <;> cases hf : FLAG_PP.testBit i <;>
      cases hl : LANG_ALL.testBit i <;> simp [hf, hl] at hi ⊢
  · intro m
    rw [clear_flag, Nat.and_assoc,
      show bitnot32 FLAG_PP &&& LANG_ALL = LANG_ALL by decide]
  · intro m hm
    have hlt : m < 2 ^ 8 := by
      rw [← hm]
      exact Nat.and_lt_two_pow m (show LANG_ALL < 2 ^ 8 by decide)
    have hor : m ||| FLAG_PP < 2 ^ 8 :=
      Nat.or_lt_two_pow hlt (show FLAG_PP < 2 ^ 8 by decide)
    exact Nat.mod_eq_of_lt hor

/-- C5 at the mask `LANG_C | LANG_CPP`, which lies within `LANG_ALL`. -/
theorem flag_pp_independent_witness :
    (LANG_C ||| LANG_CPP) &&& LANG_ALL = LANG_C ||| LANG_CPP ∧
    to_uint8 ((LANG_C ||| LANG_CPP) ||| FLAG_PP) = (LANG_C ||| LANG_CPP) ||| FLAG_PP :=
  ⟨by decide, flag_pp_independent.2.2.2.2.1 (LANG_C ||| LANG_CPP) (by decide)⟩

/-! ### Array capacities -/

/-- A C `int` index is in bounds of an array of `n` elements iff it is at
least 0 and less than `n`. -/
theorem CArray.in_bounds_iff {α : Type} {n : Nat} (a : CArray α n) (i : Int) :
    a.in_bounds i = true ↔ 0 ≤ i ∧ i < n := by
  unfold CArray.in_bounds CArray.at?
  by_cases h : i < 0
  · simp only [h, if_true, Option.isSome_none]
    constructor
    · intro hf
      exact absurd hf (by decide)
    · intro hb
      omega
  · simp only [h, if_false]
    rw [Option.isSome_iff_exists]
    constructor
    · rintro ⟨x, hx⟩
      have hlt := (List.getElem?_eq_some_iff.mp hx).1
      rw [a.size_eq] at hlt
      omega
    · rintro ⟨h0, hn⟩
      have hlt : i.toNat < a.data.length := by
        rw [a.size_eq]
        omega
      exact ⟨a.data[i.toNat], List.getElem?_eq_getElem hlt⟩

/-- C8: a parse frame holds 128 paren-stack entries and a parse context holds
16 parse frames and 80 alignment slots: an index `i` into `pse`, `frames` or
`al` is in bounds iff `0 <= i < 128`, `0 <= i < 16` or `0 <= i < 80`. -/
theorem fixed_capacities {T V F : Type} {le uo : Nat}
    (frm : parse_frame T) (cpd : cp_data T V F le uo) (i : Int) :
    (frm.pse.data.length = 128 ∧ cpd.frames.data.length = 16 ∧ cpd.al.data.length = 80) ∧
    (frm.pse.in_bounds i = true ↔ 0 ≤ i ∧ i < 128) ∧
    (cpd.frames.in_bounds i = true ↔ 0 ≤ i ∧ i < 16) ∧
    (cpd.al.in_bounds i = true ↔ 0 ≤ i ∧ i < 80) :=
  ⟨⟨frm.pse.size_eq, cpd.frames.size_eq, cpd.al.size_eq⟩,
    frm.pse.in_bounds_iff i, cpd.frames.in_bounds_iff i, cpd.al.in_bounds_iff i⟩

/-! ### The do-while construct -/

/-- Recording the stage that was visited last adds no visit. -/
theorem note_stage_same (seen : List brstage_e) (st : brstage_e)
    (h : seen.getLast? = some st) : note_stage seen st = seen := by
  simp [note_stage, h]

/-- An entry pushed above height `k` does not change the stage at height `k`. -/
theorem stage_at_cons (k : Nat) (e : paren_stack_entry c_token_t) (s : pse_stack)
    (h : k < s.length) : stage_at k (e :: s) = stage_at k s := by
  unfold stage_at
  rw [List.reverse_cons, List.getElem?_append_left (by simpa using h)]

/-- The entry pushed on a stack of `k` entries is the entry at height `k`. -/
theorem stage_at_length (e : paren_stack_entry c_token_t) (s : pse_stack) :
    stage_at s.length (e :: s) = e.stage := by
  unfold stage_at
  rw [List.reverse_cons, List.getElem?_append_right (by simp)]
  simp

/-- A stack of `k` entries has no entry at height `k`. -/
theorem stage_at_self (s : pse_stack) : stage_at s.length s = BS_NONE := by
  unfold stage_at
  rw [List.getElem?_eq_none (by simp)]

/-- A step that leaves the stage at height `k` as it was last seen adds no
visit. -/
theorem visits_step (k : Nat) (s s2 : pse_stack) (seen : List brstage_e) (t : c_token_t)
    (ts : List c_token_t) (hstep : brace_step s t ts.head? = some s2)
    (hseen : seen.getLast? = some (stage_at k s2)) :
    brace_visits k s seen (t :: ts) = brace_visits k s2 seen ts := by
  rw [brace_visits, hstep]
  simp only [note_stage_same seen _ hseen]

/-- A step that moves the entry at height `k` to a new stage adds a visit. -/
theorem visits_step_note (k : Nat) (s s2 : pse_stack) (seen : List brstage_e) (t : c_token_t)
    (ts : List c_token_t) (hstep : brace_step s t ts.head? = some s2) :
    brace_visits k s seen (t :: ts) =
      brace_visits k s2 (note_stage seen (stage_at k s2)) ts := by
  rw [brace_visits, hstep]

/-- Nothing is popped from a stack whose top entry has no pending construct. -/
theorem resolve_top_quiet (t : c_token_t) (s : pse_stack) (h : top_stage s = BS_NONE) :
    resolve_top t s = s := by
  cases s with
  | nil => rfl
  | cons e rest =>
    simp only [top_stage] at h
    simp [resolve_top, h]

/-- Closing a group above an entry with no pending construct leaves that
entry alone. -/
theorem close_stage_quiet (o : c_token_t) (s : pse_stack) (h : top_stage s = BS_NONE) :
    close_stage o s = s := by
  cases s with
  | nil => rfl
  | cons e rest =>
    simp only [top_stage] at h
    simp [close_stage, h]

/-- A word leaves a stack with no pending construct alone. -/
theorem step_word (s : pse_stack) (n : Option c_token_t) (h : top_stage s = BS_NONE) :
    brace_step s CT_WORD n = some s := by
  simp [brace_step, resolve_top_quiet _ s h, brace_dispatch, get_token_pattern_class,
    is_open, is_close]

/-- A semicolon leaves a stack with no pending construct alone. -/
theorem step_semi (s : pse_stack) (n : Option c_token_t) (h : top_stage s = BS_NONE) :
    brace_step s CT_SEMICOLON n = some s := by
  simp [brace_step, resolve_top_quiet _ s h, brace_dispatch, get_token_pattern_class,
    is_open, is_close]

/-- An unmatched close symbol pops nothing. -/
theorem step_stray (s : pse_stack) (t : c_token_t) (n : Option c_token_t)
    (h : top_stage s = BS_NONE) (hc : is_close t = true) (hm : closes t (top_type s) = false) :
    brace_step s t n = some s := by
  rw [brace_step, resolve_top_quiet _ s h]
  cases s with
  | nil => cases t <;> simp [is_close] at hc <;>
      simp [brace_dispatch, get_token_pattern_class, is_open, is_close]
  | cons e rest =>
    simp only [top_type] at hm
    cases t <;> simp [is_close] at hc <;>
      simp [brace_dispatch, get_token_pattern_class, is_open, is_close, hm]

/-- An open symbol pushes the entry of its group. -/
theorem step_open (s : pse_stack) (t : c_token_t) (n : Option c_token_t)
    (ho : is_open t = true) (hlen : s.length < PSE_SIZE)
    (h1 : top_stage s ≠ BS_WOD_SEMI) (h2 : top_stage s ≠ BS_ELSE)
    (h3 : t = CT_BRACE_OPEN → top_stage s ≠ BS_OP_PAREN1) :
    brace_step s t n = some (pse_entry t (top_type s) BS_NONE :: s) := by
  have hr : resolve_top t s = s := by
    cases s with
    | nil => rfl
    | cons e rest =>
      simp only [top_stage] at h1 h2
      simp [resolve_top, h1, h2]
  rw [brace_step, hr]
  cases t <;> simp [is_open] at ho <;> simp at h3 <;>
    simp [brace_dispatch, get_token_pattern_class, is_open, pse_push, hlen, h3]

/-- A keyword pushes the entry of its construct on a stack with no pending
construct. -/
theorem step_keyword (s : pse_stack) (t : c_token_t) (n : Option c_token_t)
    (h : top_stage s = BS_NONE) (hlen : s.length < PSE_SIZE) :
    (get_token_pattern_class t = PATCLS_PBRACED →
      brace_step s t n = some (pse_entry t (top_type s) BS_PAREN1 :: s)) ∧
    (get_token_pattern_class t = PATCLS_OPBRACED →
      brace_step s t n = some (pse_entry t (top_type s) BS_OP_PAREN1 :: s)) ∧
    (get_token_pattern_class t = PATCLS_BRACED →
      brace_step s t n = some (pse_entry t (top_type s) BS_BRACE_DO :: s)) ∧
    (get_token_pattern_class t = PATCLS_VBRACED →
      brace_step s t n = some (pse_entry t (top_type s) BS_BRACE2 :: s)) := by
  rw [brace_step, resolve_top_quiet _ s h]
  refine ⟨?_, ?_, ?_, ?_⟩ <;> intro hc <;>
    simp [brace_dispatch, hc, h, pse_push, hlen]

/-- The close paren of the group of a construct steps the stage of the
construct. -/
theorem step_close_paren (base : pse_stack) (kw p q : c_token_t) (n : Option c_token_t) :
    brace_step (pse_entry CT_PAREN_OPEN p BS_NONE :: pse_entry kw q BS_PAREN1 :: base)
        CT_PAREN_CLOSE n = some (pse_entry kw q BS_BRACE2 :: base) ∧
    brace_step (pse_entry CT_PAREN_OPEN p BS_NONE :: pse_entry kw q BS_OP_PAREN1 :: base)
        CT_PAREN_CLOSE n = some (pse_entry kw q BS_BRACE2 :: base) ∧
    brace_step (pse_entry CT_PAREN_OPEN p BS_NONE :: pse_entry kw q BS_WOD_PAREN :: base)
        CT_PAREN_CLOSE n = some (pse_entry kw q BS_WOD_SEMI :: base) := by
  refine ⟨?_, ?_, ?_⟩ <;>
    simp [brace_step, resolve_top, brace_dispatch, get_token_pattern_class, is_open, is_close,
      closes, close_stage, pse_entry, top_stage]

/-- The close brace of the group of a construct steps the stage of the
construct: `BRACE_DO` to `WHILE`, `BRACE2` to `ELSE` for `if`, and any
other construct in `BRACE2` is popped. -/
theorem step_close_brace (base : pse_stack) (kw p q : c_token_t) (n : Option c_token_t) :
    brace_step (pse_entry CT_BRACE_OPEN p BS_NONE :: pse_entry kw q BS_BRACE_DO :: base)
        CT_BRACE_CLOSE n = some (pse_entry kw q BS_WHILE :: base) ∧
    brace_step (pse_entry CT_BRACE_OPEN p BS_NONE :: pse_entry CT_IF q BS_BRACE2 :: base)
        CT_BRACE_CLOSE n = some (pse_entry CT_IF q BS_ELSE :: base) ∧
    (kw ≠ CT_IF →
      brace_step (pse_entry CT_BRACE_OPEN p BS_NONE :: pse_entry kw q BS_BRACE2 :: base)
        CT_BRACE_CLOSE n = some base) := by
  refine ⟨?_, ?_, ?_⟩
  · simp [brace_step, resolve_top, brace_dispatch, get_token_pattern_class, is_open, is_close,
      closes, close_stage, pse_entry, top_stage]
  · simp [brace_step, resolve_top, brace_dispatch, get_token_pattern_class, is_open, is_close,
      closes, close_stage, pse_entry, top_stage]
  · intro hkw
    simp [brace_step, resolve_top, brace_dispatch, get_token_pattern_class, is_open, is_close,
      closes, close_stage, pse_entry, top_stage, hkw]

/-- The close symbol of a free group pops its entry. -/
theorem step_close_free (base : pse_stack) (o c p : c_token_t) (n : Option c_token_t)
    (h : top_stage base = BS_NONE) (hm : closes c o = true) :
    brace_step (pse_entry o p BS_NONE :: base) c n = some base := by
  cases c <;> cases o <;> simp [closes] at hm <;>
    simp [brace_step, resolve_top, brace_dispatch, get_token_pattern_class, is_open, is_close,
      closes, pse_entry, top_stage, close_stage_quiet _ base h]

/-- The keyword `while` after the brace of a `do` moves its entry to
`WOD_PAREN`. -/
theorem step_while_of_do (base : pse_stack) (kw q : c_token_t) (n : Option c_token_t) :
    brace_step (pse_entry kw q BS_WHILE :: base) CT_WHILE n =
      some (pse_entry kw q BS_WOD_PAREN :: base) := by
  simp [brace_step, resolve_top, brace_dispatch, pse_entry, top_stage, top_type, set_top]

/-- The semicolon after the while of a `do` pops the entry of the `do`. -/
theorem step_wod_semi (base : pse_stack) (kw q : c_token_t) (n : Option c_token_t) :
    brace_step (pse_entry kw q BS_WOD_SEMI :: base) CT_SEMICOLON n = some base := by
  simp [brace_step, resolve_top, brace_dispatch, pse_entry, get_token_pattern_class,
    is_open, is_close]

/-- The keyword `do` pushes the entry of its construct, in `BRACE_DO`, on
any stack whose top entry is not popped first. -/
theorem step_do (s : pse_stack) (n : Option c_token_t) (hlen : s.length < PSE_SIZE)
    (h1 : top_stage s ≠ BS_WOD_SEMI) (h2 : top_stage s ≠ BS_ELSE) :
    brace_step s CT_DO n = some (pse_entry CT_DO (top_type s) BS_BRACE_DO :: s) := by
  have hr : resolve_top CT_DO s = s := by
    cases s with
    | nil => rfl
    | cons e rest =>
      simp only [top_stage] at h1 h2
      simp [resolve_top, h1, h2]
  rw [brace_step, hr]
  simp [brace_dispatch, get_token_pattern_class, pse_push, hlen]

/-- An `else` followed by `if` moves the entry of the `if` to `ELSEIF`, and
an `else` followed by an open brace moves it to `BRACE2`. -/
theorem step_else (base : pse_stack) (q : c_token_t) :
    brace_step (pse_entry CT_IF q BS_ELSE :: base) CT_ELSE (some CT_IF) =
      some (pse_entry CT_ELSE q BS_ELSEIF :: base) ∧
    brace_step (pse_entry CT_IF q BS_ELSE :: base) CT_ELSE (some CT_BRACE_OPEN) =
      some (pse_entry CT_ELSE q BS_BRACE2 :: base) := by
  constructor <;>
    simp [brace_step, resolve_top, brace_dispatch, pse_entry, top_stage, set_top]

/-- The `if` after an `else` re-enters `PAREN1` in the same entry. -/
theorem step_elseif (base : pse_stack) (q : c_token_t) (n : Option c_token_t) :
    brace_step (pse_entry CT_ELSE q BS_ELSEIF :: base) CT_IF n =
      some (pse_entry CT_IF q BS_PAREN1 :: base) := by
  simp [brace_step, resolve_top, brace_dispatch, pse_entry, top_stage, set_top]

/-- An open brace right after `catch` moves the entry of the `catch` to
`BRACE2` and pushes the entry of the brace. -/
theorem step_catch_brace (base : pse_stack) (q : c_token_t) (n : Option c_token_t)
    (hlen : base.length + 1 < PSE_SIZE) :
    brace_step (pse_entry CT_CATCH q BS_OP_PAREN1 :: base) CT_BRACE_OPEN n =
      some (pse_entry CT_BRACE_OPEN CT_CATCH BS_NONE :: pse_entry CT_CATCH q BS_BRACE2 ::
        base) := by
  simp [brace_step, resolve_top, brace_dispatch, pse_entry, top_stage, top_type, set_top,
    get_token_pattern_class, is_open, pse_push, hlen]

/-- The value of a keyword + value + brace construct is passed over. -/
theorem step_value (base : pse_stack) (kw q : c_token_t) (n : Option c_token_t) :
    brace_step (pse_entry kw q BS_BRACE2 :: base) CT_WORD n =
      some (pse_entry kw q BS_BRACE2 :: base) := by
  simp [brace_step, resolve_top, brace_dispatch, pse_entry, top_stage,
    get_token_pattern_class, is_open, is_close]

/-- An entry that waits for an `else` is popped by any other token, which
is then handled as on the stack below. -/
theorem step_no_else (base : pse_stack) (kw q t : c_token_t) (n : Option c_token_t)
    (h : top_stage base = BS_NONE) (ht : t ≠ CT_ELSE) :
    brace_step (pse_entry kw q BS_ELSE :: base) t n = brace_step base t n := by
  rw [brace_step, brace_step, resolve_top_quiet t base h]
  simp [resolve_top, pse_entry, ht]

/-- The run after an `if` construct with no `else` is the run on the stack
below the entry of the `if`. -/
theorem visits_no_else (k : Nat) (base : pse_stack) (kw q t : c_token_t)
    (seen : List brstage_e) (ts : List c_token_t)
    (h : top_stage base = BS_NONE) (ht : t ≠ CT_ELSE) :
    brace_visits k (pse_entry kw q BS_ELSE :: base) seen (t :: ts) =
      brace_visits k base seen (t :: ts) := by
  rw [brace_visits, brace_visits, step_no_else base kw q t _ h ht]

/-- A well-formed sequence followed by a token other than `else` does not
start with `else`. -/
theorem code.tokens_start (c : code) (ctx t : c_token_t) (more : List c_token_t)
    (hwf : c.wf ctx = true) (ht : t ≠ CT_ELSE) :
    ∃ t2 ts2, c.tokens ++ t :: more = t2 :: ts2 ∧ t2 ≠ CT_ELSE := by
  cases c with
  | done => exact ⟨t, more, rfl, ht⟩
  | stray s rest =>
    refine ⟨s, rest.tokens ++ t :: more, rfl, ?_⟩
    simp only [code.wf, Bool.and_eq_true] at hwf
    intro hs
    rw [hs] at hwf
    simp [is_close] at hwf
  | cond_stmt kw c b rest =>
    refine ⟨kw, _, rfl, ?_⟩
    simp only [code.wf, Bool.and_eq_true, decide_eq_true_eq] at hwf
    intro hs
    rw [hs] at hwf
    simp [get_token_pattern_class] at hwf
  | word rest => exact ⟨_, _, rfl, by decide⟩
  | semi rest => exact ⟨_, _, rfl, by decide⟩
  | paren inner rest => exact ⟨_, _, rfl, by decide⟩
  | brace inner rest => exact ⟨_, _, rfl, by decide⟩
  | if_else c b e rest => exact ⟨_, _, rfl, by decide⟩
  | if_else_if c b tail => exact ⟨_, _, rfl, by decide⟩
  | catch_stmt b rest => exact ⟨_, _, rfl, by decide⟩
  | catch_paren c b rest => exact ⟨_, _, rfl, by decide⟩
  | namespace_stmt b rest => exact ⟨_, _, rfl, by decide⟩
  | do_stmt b c rest => exact ⟨_, _, rfl, by decide⟩

/-- The last stage seen is still the stage at height `k` after a push above
height `k`. -/
theorem seen_cons (k : Nat) (s : pse_stack) (seen : List brstage_e)
    (e : paren_stack_entry c_token_t) (hk : k < s.length)
    (h : seen.getLast? = some (stage_at k s)) :
    seen.getLast? = some (stage_at k (e :: s)) := by
  rw [stage_at_cons k e s hk]
  exact h

/-- The last stage seen is still the stage at height `k` after two pushes
above height `k`. -/
theorem seen_cons2 (k : Nat) (s : pse_stack) (seen : List brstage_e)
    (e1 e2 : paren_stack_entry c_token_t) (hk : k < s.length)
    (h : seen.getLast? = some (stage_at k s)) :
    seen.getLast? = some (stage_at k (e1 :: e2 :: s)) :=
  seen_cons k (e2 :: s) seen e1 (Nat.lt_succ_of_lt hk) (seen_cons k s seen e2 hk h)

/-- A group whose content is passed over: the open symbol pushes the entry
of the group, and the run reaches the close symbol with that entry on top. -/
theorem visits_group (k : Nat) (inner : code)
    (hin : ∀ (base : pse_stack) (seen : List brstage_e) (t : c_token_t)
      (more : List c_token_t), k < base.length → top_stage base = BS_NONE →
      inner.wf (top_type base) = true → base.length + inner.need ≤ PSE_SIZE →
      t ≠ CT_ELSE → seen.getLast? = some (stage_at k base) →
      brace_visits k base seen (inner.tokens ++ t :: more) =
        brace_visits k base seen (t :: more))
    (s : pse_stack) (o cl : c_token_t) (seen : List brstage_e) (ts : List c_token_t)
    (ho : is_open o = true) (hcl : cl ≠ CT_ELSE) (hk : k < s.length)
    (hlen : s.length + 1 + inner.need ≤ PSE_SIZE)
    (h1 : top_stage s ≠ BS_WOD_SEMI) (h2 : top_stage s ≠ BS_ELSE)
    (h3 : o = CT_BRACE_OPEN → top_stage s ≠ BS_OP_PAREN1) (hwf : inner.wf o = true)
    (hseen : seen.getLast? = some (stage_at k s)) :
    brace_visits k s seen (o :: (inner.tokens ++ cl :: ts)) =
      brace_visits k (pse_entry o (top_type s) BS_NONE :: s) seen (cl :: ts) := by
  have hP : PSE_SIZE = 128 := rfl
  rw [visits_step k s _ seen o _ (step_open s o _ ho (by omega) h1 h2 h3)
    (seen_cons k s seen _ hk hseen)]
  exact hin _ seen cl ts (Nat.lt_succ_of_lt hk) rfl hwf
    (by simp only [List.length_cons]; omega) hcl (seen_cons k s seen _ hk hseen)

/-- A well-formed sequence that fits in the stack is passed over: the run
comes back to the stack it started on, and the entry at a height below
that stack visits no stage. -/
theorem visits_code (k : Nat) (c : code) :
    ∀ (base : pse_stack) (seen : List brstage_e) (t : c_token_t) (more : List c_token_t),
      k < base.length → top_stage base = BS_NONE →
      c.wf (top_type base) = true → base.length + c.need ≤ PSE_SIZE →
      t ≠ CT_ELSE → seen.getLast? = some (stage_at k base) →
      brace_visits k base seen (c.tokens ++ t :: more) =
        brace_visits k base seen (t :: more) := by
  have hP : PSE_SIZE = 128 := rfl
  induction c with
  | done =>
    intro base seen t more _ _ _ _ _ _
    rfl
  | word rest ih =>
    intro base seen t more hk hq hwf hneed ht hseen
    simp only [code.wf] at hwf
    simp only [code.need] at hneed
    simp only [code.tokens, List.cons_append]
    rw [visits_step k base base seen CT_WORD _ (step_word base _ hq) hseen]
    exact ih base seen t more hk hq hwf hneed ht hseen
  | semi rest ih =>
    intro base seen t more hk hq hwf hneed ht hseen
    simp only [code.wf] at hwf
    simp only [code.need] at hneed
    simp only [code.tokens, List.cons_append]
    rw [visits_step k base base seen CT_SEMICOLON _ (step_semi base _ hq) hseen]
    exact ih base seen t more hk hq hwf hneed ht hseen
  | stray s rest ih =>
    intro base seen t more hk hq hwf hneed ht hseen
    simp only [code.wf, Bool.and_eq_true, Bool.not_eq_true'] at hwf
    simp only [code.need] at hneed
    simp only [code.tokens, List.cons_append]
    rw [visits_step k base base seen s _ (step_stray base s _ hq hwf.1.1 hwf.1.2) hseen]
    exact ih base seen t more hk hq hwf.2 hneed ht hseen
  | paren inner rest ihi ihr =>
    intro base seen t more hk hq hwf hneed ht hseen
    simp only [code.wf, Bool.and_eq_true] at hwf
    simp only [code.need] at hneed
    simp only [code.tokens, List.cons_append, List.append_assoc]
    rw [visits_group k inner ihi base CT_PAREN_OPEN CT_PAREN_CLOSE seen _ rfl (by decide) hk
      (by omega) (by rw [hq]; decide) (by rw [hq]; decide) (by rw [hq]; decide) hwf.1 hseen]
    rw [visits_step k _ base seen CT_PAREN_CLOSE _
      (step_close_free base CT_PAREN_OPEN CT_PAREN_CLOSE _ _ hq rfl) hseen]
    exact ihr base seen t more hk hq hwf.2 (by omega) ht hseen
  | brace inner rest ihi ihr =>
    intro base seen t more hk hq hwf hneed ht hseen
    simp only [code.wf, Bool.and_eq_true] at hwf
    simp only [code.need] at hneed
    simp only [code.tokens, List.cons_append, List.append_assoc]
    rw [visits_group k inner ihi base CT_BRACE_OPEN CT_BRACE_CLOSE seen _ rfl (by decide) hk
      (by omega) (by rw [hq]; decide) (by rw [hq]; decide) (by rw [hq]; decide) hwf.1 hseen]
    rw [visits_step k _ base seen CT_BRACE_CLOSE _
      (step_close_free base CT_BRACE_OPEN CT_BRACE_CLOSE _ _ hq rfl) hseen]
    exact ihr base seen t more hk hq hwf.2 (by omega) ht hseen
  | cond_stmt kw c b rest ihc ihb ihr =>
    intro base seen t more hk hq hwf hneed ht hseen
    simp only [code.wf, Bool.and_eq_true, decide_eq_true_eq] at hwf
    simp only [code.need] at hneed
    simp only [code.tokens, List.cons_append, List.append_assoc]
    rw [visits_step k base _ seen kw _ ((step_keyword base kw _ hq (by omega)).1 hwf.1.1.1)
      (seen_cons k base seen _ hk hseen)]
    rw [visits_group k c ihc (pse_entry kw (top_type base) BS_PAREN1 :: base)
      CT_PAREN_OPEN CT_PAREN_CLOSE seen _ rfl (by decide)
      (Nat.lt_succ_of_lt hk) (by simp only [List.length_cons]; omega)
      (by simp [top_stage, pse_entry]) (by simp [top_stage, pse_entry])
      (by simp [top_stage, pse_entry]) hwf.1.1.2 (seen_cons k base seen _ hk hseen)]
    rw [visits_step k _ _ seen CT_PAREN_CLOSE _ (step_close_paren base kw _ _ _).1
      (seen_cons k base seen _ hk hseen)]
    rw [visits_group k b ihb (pse_entry kw (top_type base) BS_BRACE2 :: base)
      CT_BRACE_OPEN CT_BRACE_CLOSE seen _ rfl (by decide)
      (Nat.lt_succ_of_lt hk) (by simp only [List.length_cons]; omega)
      (by simp [top_stage, pse_entry]) (by simp [top_stage, pse_entry])
      (by simp [top_stage, pse_entry]) hwf.1.2 (seen_cons k base seen _ hk hseen)]
    by_cases hkw : kw = CT_IF
    · subst hkw
      rw [visits_step k _ _ seen CT_BRACE_CLOSE _ (step_close_brace base CT_IF _ _ _).2.1
        (seen_cons k base seen _ hk hseen)]
      obtain ⟨t2, ts2, heq, ht2⟩ := code.tokens_start rest (top_type base) t more hwf.2 ht
      rw [heq, visits_no_else k base _ _ t2 seen ts2 hq ht2, ← heq]
      exact ihr base seen t more hk hq hwf.2 (by omega) ht hseen
    · rw [visits_step k _ _ seen CT_BRACE_CLOSE _ ((step_close_brace base kw _ _ _).2.2 hkw)
        hseen]
      exact ihr base seen t more hk hq hwf.2 (by omega) ht hseen
  | if_else c b e rest ihc ihb ihe ihr =>
    intro base seen t more hk hq hwf hneed ht hseen
    simp only [code.wf, Bool.and_eq_true] at hwf
    simp only [code.need] at hneed
    simp only [code.tokens, List.cons_append, List.append_assoc]
    rw [visits_step k base _ seen CT_IF _ ((step_keyword base CT_IF _ hq (by omega)).1 rfl)
      (seen_cons k base seen _ hk hseen)]
    rw [visits_group k c ihc (pse_entry CT_IF (top_type base) BS_PAREN1 :: base)
      CT_PAREN_OPEN CT_PAREN_CLOSE seen _ rfl (by decide)
      (Nat.lt_succ_of_lt hk) (by simp only [List.length_cons]; omega)
      (by simp [top_stage, pse_entry]) (by simp [top_stage, pse_entry])
      (by simp [top_stage, pse_entry]) hwf.1.1.1 (seen_cons k base seen _ hk hseen)]
    rw [visits_step k _ _ seen CT_PAREN_CLOSE _ (step_close_paren base CT_IF _ _ _).1
      (seen_cons k base seen _ hk hseen)]
    rw [visits_group k b ihb (pse_entry CT_IF (top_type base) BS_BRACE2 :: base)
      CT_BRACE_OPEN CT_BRACE_CLOSE seen _ rfl (by decide)
      (Nat.lt_succ_of_lt hk) (by simp only [List.length_cons]; omega)
      (by simp [top_stage, pse_entry]) (by simp [top_stage, pse_entry])
      (by simp [top_stage, pse_entry]) hwf.1.1.2 (seen_cons k base seen _ hk hseen)]
    rw [visits_step k _ _ seen CT_BRACE_CLOSE _ (step_close_brace base CT_IF _ _ _).2.1
      (seen_cons k base seen _ hk hseen)]
    rw [visits_step k _ _ seen CT_ELSE _ (step_else base _).2
      (seen_cons k base seen _ hk hseen)]
    rw [visits_group k e ihe (pse_entry CT_ELSE (top_type base) BS_BRACE2 :: base)
      CT_BRACE_OPEN CT_BRACE_CLOSE seen _ rfl (by decide)
      (Nat.lt_succ_of_lt hk) (by simp only [List.length_cons]; omega)
      (by simp [top_stage, pse_entry]) (by simp [top_stage, pse_entry])
      (by simp [top_stage, pse_entry]) hwf.1.2 (seen_cons k base seen _ hk hseen)]
    rw [visits_step k _ _ seen CT_BRACE_CLOSE _
      ((step_close_brace base CT_ELSE _ _ _).2.2 (by decide)) hseen]
    exact ihr base seen t more hk hq hwf.2 (by omega) ht hseen
  | if_else_if c b tail ihc ihb iht =>
    intro base seen t more hk hq hwf hneed ht hseen
    simp only [code.wf, Bool.and_eq_true, decide_eq_true_eq] at hwf
    simp only [code.need] at hneed
    simp only [code.tokens, List.cons_append, List.append_assoc]
    rw [visits_step k base _ seen CT_IF _ ((step_keyword base CT_IF _ hq (by omega)).1 rfl)
      (seen_cons k base seen _ hk hseen)]
    rw [visits_group k c ihc (pse_entry CT_IF (top_type base) BS_PAREN1 :: base)
      CT_PAREN_OPEN CT_PAREN_CLOSE seen _ rfl (by decide)
      (Nat.lt_succ_of_lt hk) (by simp only [List.length_cons]; omega)
      (by simp [top_stage, pse_entry]) (by simp [top_stage, pse_entry])
      (by simp [top_stage, pse_entry]) hwf.1.1.1 (seen_cons k base seen _ hk hseen)]
    rw [visits_step k _ _ seen CT_PAREN_CLOSE _ (step_close_paren base CT_IF _ _ _).1
      (seen_cons k base seen _ hk hseen)]
    rw [visits_group k b ihb (pse_entry CT_IF (top_type base) BS_BRACE2 :: base)
      CT_BRACE_OPEN CT_BRACE_CLOSE seen _ rfl (by decide)
      (Nat.lt_succ_of_lt hk) (by simp only [List.length_cons]; omega)
      (by simp [top_stage, pse_entry]) (by simp [top_stage, pse_entry])
      (by simp [top_stage, pse_entry]) hwf.1.1.2 (seen_cons k base seen _ hk hseen)]
    rw [visits_step k _ _ seen CT_BRACE_CLOSE _ (step_close_brace base CT_IF _ _ _).2.1
      (seen_cons k base seen _ hk hseen)]
    have hgoal := iht base seen t more hk hq hwf.2 (by omega) ht hseen
    cases htl : tail.tokens with
    | nil => rw [htl] at hwf; simp at hwf
    | cons t1 tl =>
      rw [htl] at hwf hgoal
      have ht1 : t1 = CT_IF := by simpa using hwf.1.2
      subst ht1
      simp only [List.cons_append] at hgoal ⊢
      rw [visits_step k _ _ seen CT_ELSE _ (step_else base _).1
        (seen_cons k base seen _ hk hseen)]
      rw [visits_step k _ _ seen CT_IF _ (step_elseif base _ _)
        (seen_cons k base seen _ hk hseen)]
      rw [visits_step k base _ seen CT_IF _ ((step_keyword base CT_IF _ hq (by omega)).1 rfl)
        (seen_cons k base seen _ hk hseen)] at hgoal
      exact hgoal
  | catch_stmt b rest ihb ihr =>
    intro base seen t more hk hq hwf hneed ht hseen
    simp only [code.wf, Bool.and_eq_true] at hwf
    simp only [code.need] at hneed
    simp only [code.tokens, List.cons_append, List.append_assoc]
    rw [visits_step k base _ seen CT_CATCH _
      ((step_keyword base CT_CATCH _ hq (by omega)).2.1 rfl)
      (seen_cons k base seen _ hk hseen)]
    rw [visits_step k _ _ seen CT_BRACE_OPEN _ (step_catch_brace base _ _ (by omega))
      (seen_cons2 k base seen _ _ hk hseen)]
    rw [ihb (pse_entry CT_BRACE_OPEN CT_CATCH BS_NONE ::
        pse_entry CT_CATCH (top_type base) BS_BRACE2 :: base) seen CT_BRACE_CLOSE _
      (Nat.lt_succ_of_lt (Nat.lt_succ_of_lt hk)) rfl hwf.1
      (by simp only [List.length_cons]; omega) (by decide)
      (seen_cons2 k base seen _ _ hk hseen)]
    rw [visits_step k _ _ seen CT_BRACE_CLOSE _
      ((step_close_brace base CT_CATCH _ _ _).2.2 (by decide)) hseen]
    exact ihr base seen t more hk hq hwf.2 (by omega) ht hseen
  | catch_paren c b rest ihc ihb ihr =>
    intro base seen t more hk hq hwf hneed ht hseen
    simp only [code.wf, Bool.and_eq_true] at hwf
    simp only [code.need] at hneed
    simp only [code.tokens, List.cons_append, List.append_assoc]
    rw [visits_step k base _ seen CT_CATCH _
      ((step_keyword base CT_CATCH _ hq (by omega)).2.1 rfl)
      (seen_cons k base seen _ hk hseen)]
    rw [visits_group k c ihc (pse_entry CT_CATCH (top_type base) BS_OP_PAREN1 :: base)
      CT_PAREN_OPEN CT_PAREN_CLOSE seen _ rfl (by decide)
      (Nat.lt_succ_of_lt hk) (by simp only [List.length_cons]; omega)
      (by simp [top_stage, pse_entry]) (by simp [top_stage, pse_entry])
      (by simp [top_stage, pse_entry]) hwf.1.1 (seen_cons k base seen _ hk hseen)]
    rw [visits_step k _ _ seen CT_PAREN_CLOSE _ (step_close_paren base CT_CATCH _ _ _).2.1
      (seen_cons k base seen _ hk hseen)]
    rw [visits_group k b ihb (pse_entry CT_CATCH (top_type base) BS_BRACE2 :: base)
      CT_BRACE_OPEN CT_BRACE_CLOSE seen _ rfl (by decide)
      (Nat.lt_succ_of_lt hk) (by simp only [List.length_cons]; omega)
      (by simp [top_stage, pse_entry]) (by simp [top_stage, pse_entry])
      (by simp [top_stage, pse_entry]) hwf.1.2 (seen_cons k base seen _ hk hseen)]
    rw [visits_step k _ _ seen CT_BRACE_CLOSE _
      ((step_close_brace base CT_CATCH _ _ _).2.2 (by decide)) hseen]
    exact ihr base seen t more hk hq hwf.2 (by omega) ht hseen
  | namespace_stmt b rest ihb ihr =>
    intro base seen t more hk hq hwf hneed ht hseen
    simp only [code.wf, Bool.and_eq_true] at hwf
    simp only [code.need] at hneed
    simp only [code.tokens, List.cons_append, List.append_assoc]
    rw [visits_step k base _ seen CT_NAMESPACE _
      ((step_keyword base CT_NAMESPACE _ hq (by omega)).2.2.2 rfl)
      (seen_cons k base seen _ hk hseen)]
    rw [visits_step k _ _ seen CT_WORD _ (step_value base CT_NAMESPACE _ _)
      (seen_cons k base seen _ hk hseen)]
    rw [visits_group k b ihb (pse_entry CT_NAMESPACE (top_type base) BS_BRACE2 :: base)
      CT_BRACE_OPEN CT_BRACE_CLOSE seen _ rfl (by decide)
      (Nat.lt_succ_of_lt hk) (by simp only [List.length_cons]; omega)
      (by simp [top_stage, pse_entry]) (by simp [top_stage, pse_entry])
      (by simp [top_stage, pse_entry]) hwf.1 (seen_cons k base seen _ hk hseen)]
    rw [visits_step k _ _ seen CT_BRACE_CLOSE _
      ((step_close_brace base CT_NAMESPACE _ _ _).2.2 (by decide)) hseen]
    exact ihr base seen t more hk hq hwf.2 (by omega) ht hseen
  | do_stmt b c rest ihb ihc ihr =>
    intro base seen t more hk hq hwf hneed ht hseen
    simp only [code.wf, Bool.and_eq_true] at hwf
    simp only [code.need] at hneed
    simp only [code.tokens, List.cons_append, List.append_assoc]
    rw [visits_step k base _ seen CT_DO _ ((step_keyword base CT_DO _ hq (by omega)).2.2.1 rfl)
      (seen_cons k base seen _ hk hseen)]
    rw [visits_group k b ihb (pse_entry CT_DO (top_type base) BS_BRACE_DO :: base)
      CT_BRACE_OPEN CT_BRACE_CLOSE seen _ rfl (by decide)
      (Nat.lt_succ_of_lt hk) (by simp only [List.length_cons]; omega)
      (by simp [top_stage, pse_entry]) (by simp [top_stage, pse_entry])
      (by simp [top_stage, pse_entry]) hwf.1.1 (seen_cons k base seen _ hk hseen)]
    rw [visits_step k _ _ seen CT_BRACE_CLOSE _ (step_close_brace base CT_DO _ _ _).1
      (seen_cons k base seen _ hk hseen)]
    rw [visits_step k _ _ seen CT_WHILE _ (step_while_of_do base CT_DO _ _)
      (seen_cons k base seen _ hk hseen)]
    rw [visits_group k c ihc (pse_entry CT_DO (top_type base) BS_WOD_PAREN :: base)
      CT_PAREN_OPEN CT_PAREN_CLOSE seen _ rfl (by decide)
      (Nat.lt_succ_of_lt hk) (by simp only [List.length_cons]; omega)
      (by simp [top_stage, pse_entry]) (by simp [top_stage, pse_entry])
      (by simp [top_stage, pse_entry]) hwf.1.2 (seen_cons k base seen _ hk hseen)]
    rw [visits_step k _ _ seen CT_PAREN_CLOSE _ (step_close_paren base CT_DO _ _ _).2.2
      (seen_cons k base seen _ hk hseen)]
    rw [visits_step k _ _ seen CT_SEMICOLON _ (step_wod_semi base CT_DO _ _) hseen]
    exact ihr base seen t more hk hq hwf.2 (by omega) ht hseen
end Uncrustify
